import Mathlib

/-!
Shallow embedding of the rule distribution and integrity-verification
pipeline of `src/background.js` (BlockHub background service worker),
together with proofs of the specified properties.

JavaScript values flowing through the normalizer are modelled by `JVal`.
`JSON.parse` never yields `undefined`, and every place the source
distinguishes absent properties does so through falsiness or
`typeof`-checks that treat `undefined` and `null` alike, so an absent
property is modelled as `JVal.null`.
-/

namespace BlockHub

/-- Model of a JavaScript/JSON value (src/background.js works on parsed JSON). -/
inductive JVal where
  | null
  | bool (b : Bool)
  | num (n : Int)
  | str (s : String)
  | arr (elems : List JVal)
  | obj (fields : List (String × JVal))
deriving Repr

/-- JavaScript truthiness. An `obj`/`arr` is always truthy; `null`, `false`,
`0` and the empty string are falsy. -/
def JVal.truthy : JVal → Bool
  | .null => false
  | .bool b => b
  | .num n => n != 0
  | .str s => s != ""
  | .arr _ => true
  | .obj _ => true

/-- Property access `v?.key` / `v.key`: absent properties (and access on a
non-object) give `null` (standing for JS `undefined`). -/
def JVal.get (v : JVal) (key : String) : JVal :=
  match v with
  | .obj fields =>
    match fields.lookup key with
    | some x => x
    | none => .null
  | _ => .null

/-- `Array.isArray(v)`. -/
def JVal.isArr : JVal → Bool
  | .arr _ => true
  | _ => false

/-- `typeof v === 'object'` (true for objects, arrays and `null`). -/
def JVal.typeofObject : JVal → Bool
  | .null => true
  | .arr _ => true
  | .obj _ => true
  | _ => false

/-- `typeof v === 'string'`. -/
def JVal.isStr : JVal → Bool
  | .str _ => true
  | _ => false

/-- `v || null`: keep a truthy value, collapse anything falsy to `null`. -/
def jsOrNull (v : JVal) : JVal :=
  if v.truthy then v else .null

/-- `a || b` for a JS value with a default. -/
def jsOr (v : JVal) (dflt : JVal) : JVal :=
  if v.truthy then v else dflt

/-- `String(v)` conversion (JS `Array.prototype.toString` joins elements with
commas, rendering `null` elements as the empty string). -/
def jsString : JVal → String
  | .null => "null"
  | .bool true => "true"
  | .bool false => "false"
  | .num n => toString n
  | .str s => s
  | .arr xs => String.intercalate ","
      (xs.attach.map fun e =>
        match e with
        | ⟨.null, _⟩ => ""
        | ⟨x, _⟩ => jsString x)
  | .obj _ => "[object Object]"

/-- `ensureArray` (src/background.js:119-121): an array stays, anything else
becomes `[]`. -/
def ensureArray : JVal → List JVal
  | .arr xs => xs
  | _ => []

/-- The fields of `ensureObject v` (src/background.js:126-131). -/
def ensureObjectFields : JVal → List (String × JVal)
  | .obj fields => fields
  | _ => []

/-- `ensureObject` (src/background.js:126-131): a plain (non-array, non-null)
object stays, anything else becomes `{}`. -/
def ensureObject (v : JVal) : JVal :=
  .obj (ensureObjectFields v)

/-- JS object property assignment `m[k] = v` on a model of an object as an
insertion-ordered association list: an existing key keeps its position and is
overwritten, a new key is appended. -/
def upsert {α : Type} (xs : List (String × α)) (k : String) (v : α) : List (String × α) :=
  match xs with
  | [] => [(k, v)]
  | (k', v') :: rest => if k' = k then (k, v) :: rest else (k', v') :: upsert rest k v

/-- Hex digit for JSON string escapes. -/
def hexDigit (n : Nat) : Char :=
  if n < 10 then Char.ofNat (48 + n) else Char.ofNat (87 + n)

/-- JSON escape of one character (as `JSON.stringify` emits it). -/
def jsonEscChar (c : Char) : String :=
  if c = '"' then "\\\""
  else if c = '\\' then "\\\\"
  else if c = '\n' then "\\n"
  else if c = '\t' then "\\t"
  else if c = '\r' then "\\r"
  else if c.toNat < 32 then
    "\\u00" ++ String.singleton (hexDigit (c.toNat / 16)) ++ String.singleton (hexDigit (c.toNat % 16))
  else String.singleton c

/-- JSON quoting of a string. -/
def jsonQuote (s : String) : String :=
  "\"" ++ String.join (s.toList.map jsonEscChar) ++ "\""

/-- `JSON.stringify(v)` on the JS value model. The source's `deepEqual`
(src/background.js:286-288) compares `JSON.stringify` outputs. -/
def JVal.stringify : JVal → String
  | .null => "null"
  | .bool true => "true"
  | .bool false => "false"
  | .num n => toString n
  | .str s => jsonQuote s
  | .arr xs =>
    "[" ++ String.intercalate "," (xs.attach.map fun e => JVal.stringify e.1) ++ "]"
  | .obj fields =>
    "\x7b" ++
      String.intercalate ","
        (fields.attach.map fun e => jsonQuote e.1.1 ++ ":" ++ JVal.stringify e.1.2) ++
    "\x7d"
decreasing_by
  · have h := List.sizeOf_lt_of_mem e.2
    simp only [JVal.arr.sizeOf_spec]
    omega
  · have h := List.sizeOf_lt_of_mem e.2
    obtain ⟨⟨k, v⟩, hm⟩ := e
    simp only [JVal.obj.sizeOf_spec]
    simp at h ⊢
    omega

/-- ASCII whitespace (the characters `String.prototype.trim` strips from the
plain-ASCII selector strings this code handles). -/
def isJsWS (c : Char) : Bool :=
  c = ' ' || c = '\t' || c = '\n' || c = '\r' || c.toNat = 11 || c.toNat = 12

/-- `s.trim()` (ASCII model): strip leading and trailing whitespace. -/
def jsTrim (s : String) : String :=
  ⟨((s.data.dropWhile isJsWS).reverse.dropWhile isJsWS).reverse⟩

/-- The selector computation shared by every DOM entry normalizer:
`typeof entry?.selector === 'string' ? entry.selector.trim() : ''`. -/
def jsSelector (e : JVal) : String :=
  match e.get "selector" with
  | .str s => jsTrim s
  | _ => ""

/-- `typeof v === 'string' ? v : null`. -/
def strOrNull (v : JVal) : Option String :=
  match v with
  | .str s => some s
  | _ => none

/-- `typeof v === 'string' ? v.trim() : null`. -/
def strTrimOrNull (v : JVal) : Option String :=
  match v with
  | .str s => some (jsTrim s)
  | _ => none

/-- Normalized fallback-pattern sub-object `{id, class}`
(src/background.js:143-148). -/
structure FallbackPatterns where
  id : Option String
  «class» : Option String
deriving Repr

/-- A DOM entry normalized by `normalizeDomEntry` (src/background.js:137-169). -/
structure DomEntry where
  id : String
  site : JVal
  feature : JVal
  url : JVal
  selector : String
  cssPath : Option String
  jsPath : Option String
  outerHTML : Option String
  text : Option String
  textContains : Option String
  fallbackPatterns : Option FallbackPatterns
  fingerprints : JVal
  notes : Option String
  category : JVal
  locale : JVal
deriving Repr

/-- `normalizeDomEntry(entry, {category, index, locale})`
(src/background.js:137-169): throws when the entry has no non-empty string
selector, otherwise builds the normalized entry. `locale` is the options
parameter (`null` by default). -/
def normalizeDomEntry (e : JVal) (category : String) (index : Nat) (locale : JVal) :
    Except String DomEntry :=
  let selector := jsSelector e
  if selector = "" then
    .error s!"Missing selector in {category} entry at index {index}"
  else
    let fpRaw := e.get "fallbackPatterns"
    let fallbackPatterns :=
      if fpRaw.truthy then
        some { id := if (fpRaw.get "id").truthy then some (jsString (fpRaw.get "id")) else none
               «class» := if (fpRaw.get "class").truthy then some (jsString (fpRaw.get "class")) else none }
      else none
    .ok
      { id := if (e.get "id").truthy then jsString (e.get "id") else s!"{category}-{index}"
        site := jsOrNull (e.get "site")
        feature := jsOrNull (e.get "feature")
        url := jsOrNull (e.get "url")
        selector := selector
        cssPath := strTrimOrNull (e.get "cssPath")
        jsPath := strTrimOrNull (e.get "jsPath")
        outerHTML := strOrNull (e.get "outerHTML")
        text := strOrNull (e.get "text")
        textContains := strOrNull (e.get "textContains")
        fallbackPatterns := fallbackPatterns
        fingerprints := ensureObject (e.get "fingerprints")
        notes := strOrNull (e.get "notes")
        category := jsOrNull (e.get "category")
        locale := jsOr locale (jsOrNull (e.get "locale")) }

/-- `entries.map((entry, index) => normalizeDomEntry(entry, {...}))` with the
first thrown error aborting the map (src/background.js:171-173, 183-189). -/
def normalizeDomEntryList (category : String) (locale : JVal) :
    Nat → List JVal → Except String (List DomEntry)
  | _, [] => .ok []
  | i, e :: rest => do
    let d ← normalizeDomEntry e category i locale
    let ds ← normalizeDomEntryList category locale (i + 1) rest
    .ok (d :: ds)

/-- ASCII uppercasing of one character (the behavior of
`String.prototype.toUpperCase` on the ASCII locale keys this code handles). -/
def jsCharUpper (c : Char) : Char :=
  if 97 ≤ c.toNat && c.toNat ≤ 122 then Char.ofNat (c.toNat - 32) else c

/-- `s.toUpperCase()` (ASCII model). -/
def jsToUpper (s : String) : String := ⟨s.data.map jsCharUpper⟩

/-- `(localeValue || defaultKey).toUpperCase()`: a truthy non-string locale
makes `.toUpperCase()` throw an (uncaught) TypeError, modelled as an error. -/
def localeKeyOf (v : JVal) (dflt : String) : Except String String :=
  if v.truthy then
    match v with
    | .str s => .ok (jsToUpper s)
    | _ => .error "TypeError: localeValue.toUpperCase is not a function"
  else .ok (jsToUpper dflt)

/-- One locale bucket built by `registerLocale` inside
`normalizeLanguageBuckets` (src/background.js:181-194). -/
structure LocaleBucket where
  title : JVal
  entries : List DomEntry
deriving Repr

/-- Result of `normalizeLanguageBuckets` (src/background.js:178-229). -/
structure LangBuckets where
  locales : List (String × LocaleBucket)
  combined : List DomEntry
deriving Repr

/-- `registerLocale(localeKey, title, entries)` (src/background.js:181-194):
normalizes the entries (strictly: a missing selector throws) and assigns the
bucket under `localeKey`. -/
def registerLocale (ns : String) (acc : List (String × LocaleBucket))
    (localeKey : String) (title : JVal) (entries : JVal) :
    Except String (List (String × LocaleBucket)) := do
  let es ← normalizeDomEntryList s!"{ns}.{localeKey}" (.str localeKey) 0 (ensureArray entries)
  .ok (upsert acc localeKey ⟨jsOrNull title, es⟩)

/-- The `rawSection.forEach((section, index) => ...)` loop over a section
array (src/background.js:209-212). -/
def bucketsFromSections (ns : String) :
    Nat → List (String × LocaleBucket) → List JVal →
    Except String (List (String × LocaleBucket))
  | _, acc, [] => .ok acc
  | i, acc, s :: rest => do
    let key ← localeKeyOf (s.get "locale") s!"SECTION_{i}"
    let acc' ← registerLocale ns acc key (jsOrNull (s.get "title")) (s.get "entries")
    bucketsFromSections ns (i + 1) acc' rest

/-- The `Object.entries(rawSection).forEach(...)` loop over a locale-keyed
object (src/background.js:217-224). -/
def bucketsFromObject (ns : String) :
    List (String × LocaleBucket) → List (String × JVal) →
    Except String (List (String × LocaleBucket))
  | acc, [] => .ok acc
  | acc, (locale, data) :: rest => do
    let key := jsToUpper locale
    let acc' ←
      if (data.get "entries").isArr then
        registerLocale ns acc key (jsOrNull (data.get "title")) (data.get "entries")
      else
        registerLocale ns acc key .null data
    bucketsFromObject ns acc' rest

/-- `normalizeLanguageBuckets(rawSection, namespace)`
(src/background.js:178-229). -/
def normalizeLanguageBuckets (rawSection : JVal) (ns : String) :
    Except String LangBuckets :=
  if !rawSection.truthy then .ok ⟨[], []⟩
  else
    let localesE : Except String (List (String × LocaleBucket)) :=
      match rawSection with
      | .arr sections =>
        let looksLikeSectionArray := sections.all fun s =>
          s.truthy && s.typeofObject && !s.isArr && (s.get "entries").isArr
        if looksLikeSectionArray then bucketsFromSections ns 0 [] sections
        else registerLocale ns [] "GLOBAL" .null rawSection
      | .obj fields => bucketsFromObject ns [] fields
      | _ => .ok []
    localesE.map fun locales => ⟨locales, locales.flatMap (·.2.entries)⟩

/-- A preserve-list element as normalized inline in
`normalizePreserveListEntries` (src/background.js:243-269).
`fallbackPatterns` is passed through unnormalized there. -/
structure PreserveElem where
  id : String
  site : JVal
  feature : JVal
  url : JVal
  selector : String
  cssPath : Option String
  jsPath : Option String
  outerHTML : Option String
  text : Option String
  textContains : Option String
  fallbackPatterns : JVal
  fingerprints : JVal
  notes : Option String
  locale : String
deriving Repr

/-- The element mapper of `normalizePreserveListEntries`
(src/background.js:243-269): `none` means the entry is skipped (no selector). -/
def preserveElem (localeKey : String) (i : Nat) (e : JVal) : Option PreserveElem :=
  let selector := jsSelector e
  if selector = "" then none
  else
    some
      { id := if (e.get "id").truthy then jsString (e.get "id") else s!"preserve-{localeKey}-{i}"
        site := jsOrNull (e.get "site")
        feature := jsOrNull (e.get "feature")
        url := jsOrNull (e.get "url")
        selector := selector
        cssPath := strTrimOrNull (e.get "cssPath")
        jsPath := strTrimOrNull (e.get "jsPath")
        outerHTML := strOrNull (e.get "outerHTML")
        text := strOrNull (e.get "text")
        textContains := strOrNull (e.get "textContains")
        fallbackPatterns := jsOrNull (e.get "fallbackPatterns")
        fingerprints := ensureObject (e.get "fingerprints")
        notes := strOrNull (e.get "notes")
        locale := localeKey }

/-- `elements.map(...).filter(Boolean)` of `normalizePreserveListEntries`
(src/background.js:243-269), also collecting the warning logged for each
skipped entry. -/
def preserveGroupElems (localeKey : String) :
    Nat → List JVal → List PreserveElem × List String
  | _, [] => ([], [])
  | i, e :: rest =>
    let (es, ws) := preserveGroupElems localeKey (i + 1) rest
    match preserveElem localeKey i e with
    | some pe => (pe :: es, ws)
    | none => (es, s!"Skipping preserve entry without selector at {localeKey}[{i}]" :: ws)

/-- One locale group of the preserve list (src/background.js:271-274). -/
structure PreserveBucket where
  title : JVal
  elements : List PreserveElem
deriving Repr

/-- Result of `normalizePreserveListEntries` (src/background.js:235-280). -/
structure PreserveEntries where
  locales : List (String × PreserveBucket)
  combined : List PreserveElem
deriving Repr

/-- The `rawEntries.forEach((localeGroup, groupIndex) => ...)` loop
(src/background.js:241-275). -/
def preserveGroups :
    Nat → List (String × PreserveBucket) → List String → List JVal →
    Except String (List (String × PreserveBucket) × List String)
  | _, acc, warns, [] => .ok (acc, warns)
  | i, acc, warns, g :: rest => do
    let key ← localeKeyOf (g.get "locale") s!"SECTION_{i}"
    let (elems, ws) := preserveGroupElems key 0 (ensureArray (g.get "elements"))
    preserveGroups (i + 1) (upsert acc key ⟨jsOrNull (g.get "title"), elems⟩) (warns ++ ws) rest

/-- `normalizePreserveListEntries(rawEntries)` (src/background.js:235-280):
entries without a selector are skipped (second component: the logged
warnings) instead of aborting the category. -/
def normalizePreserveListEntries (raw : JVal) :
    Except String (PreserveEntries × List String) :=
  match raw with
  | .arr groups =>
    (preserveGroups 0 [] [] groups).map fun r =>
      (⟨r.1, r.1.flatMap (·.2.elements)⟩, r.2)
  | _ => .ok (⟨[], []⟩, [])

/-- The five rule categories (`RULE_ENDPOINTS` keys, src/background.js:44-50). -/
inductive Category where
  | aiTerms
  | aiWidgetSelectors
  | cookiePatterns
  | killList
  | preserveList
deriving Repr, DecidableEq

/-- The JS property/category key of a category. -/
def Category.key : Category → String
  | .aiTerms => "aiTerms"
  | .aiWidgetSelectors => "aiWidgetSelectors"
  | .cookiePatterns => "cookiePatterns"
  | .killList => "killList"
  | .preserveList => "preserveList"

/-- `RULE_ENDPOINTS` (src/background.js:44-50): hardcoded fallback CDN URLs
used when `index.json` is unavailable. -/
def RULE_ENDPOINTS : Category → String
  | .aiTerms => "https://cdn.jsdelivr.net/gh/kaydinindustries-jpg/blockhub-rules@main/cdn/v1/ai_terms.json"
  | .aiWidgetSelectors => "https://cdn.jsdelivr.net/gh/kaydinindustries-jpg/blockhub-rules@main/cdn/v1/ai_widget_selectors.json"
  | .cookiePatterns => "https://cdn.jsdelivr.net/gh/kaydinindustries-jpg/blockhub-rules@main/cdn/v1/cookie_patterns.json"
  | .killList => "https://cdn.jsdelivr.net/gh/kaydinindustries-jpg/blockhub-rules@main/cdn/v1/kill_list.json"
  | .preserveList => "https://cdn.jsdelivr.net/gh/kaydinindustries-jpg/blockhub-rules@main/cdn/v1/preserve_list.json"

/-- The `metadata` sub-object of the kill-list / preserve-list payloads
(src/background.js:383-386, 400-403). -/
structure Metadata where
  version : JVal
  lastUpdated : JVal
deriving Repr

/-- One normalized CMP entry of the cookie-patterns payload
(src/background.js:364-369). -/
structure Cmp where
  name : JVal
  detect_selectors : List JVal
  reject_selectors : List JVal
  reject_text_patterns : List JVal
deriving Repr

/-- The five normalized payload shapes returned by `normalizeRuleData`
(src/background.js:317-410). -/
inductive NormalizedPayload where
  | aiTerms (conservative aggressive : List JVal)
  | aiWidgetSelectors (selectors : List JVal) (platforms : JVal)
      (text_patterns : List (String × List JVal))
  | cookiePatterns (reject_phrases excluded_domains : List JVal) (cmps : List Cmp)
  | killList (metadata : Metadata) (locales : List JVal)
      (ads aiTermsB aiWidgets cookies : LangBuckets)
  | preserveList (metadata : Metadata) (locales : List JVal) (entries : PreserveEntries)
deriving Repr

/-- `normalizeRuleData(category, rawData)` (src/background.js:317-410). -/
def normalizeRuleData (c : Category) (rawData : JVal) : Except String NormalizedPayload :=
  match c with
  | .aiTerms =>
    let conservative := ensureArray (rawData.get "conservative")
    let aggressive := ensureArray (rawData.get "aggressive")
    if conservative.length = 0 then
      .error "aiTerms.conservative must contain at least one entry"
    else
      .ok (.aiTerms conservative aggressive)
  | .aiWidgetSelectors =>
    let selectors := ensureArray (rawData.get "selectors")
    let platforms := ensureObject (rawData.get "platforms")
    let textPatternsRaw := ensureObject (rawData.get "text_patterns")
    if selectors.length = 0 then
      .error "aiWidgetSelectors.selectors must contain at least one entry"
    else
      let text_patterns :=
        (ensureObjectFields textPatternsRaw).map fun kv => (kv.1, ensureArray kv.2)
      .ok (.aiWidgetSelectors selectors platforms text_patterns)
  | .cookiePatterns =>
    let reject_phrases := ensureArray (rawData.get "reject_phrases")
    let excluded_domains := ensureArray (rawData.get "excluded_domains")
    let cmpsRaw := ensureArray (rawData.get "cmps")
    if reject_phrases.length = 0 then
      .error "cookiePatterns.reject_phrases must contain at least one entry"
    else
      let cmps := cmpsRaw.map fun cmp =>
        { name := jsOr (cmp.get "name") (.str "Unnamed CMP")
          detect_selectors := ensureArray (cmp.get "detect_selectors")
          reject_selectors := ensureArray (cmp.get "reject_selectors")
          reject_text_patterns := ensureArray (cmp.get "reject_text_patterns") : Cmp }
      .ok (.cookiePatterns reject_phrases excluded_domains cmps)
  | .killList => do
    let ads ← normalizeLanguageBuckets (rawData.get "ads") "killList.ads"
    let aiT ← normalizeLanguageBuckets (rawData.get "aiTerms") "killList.aiTerms"
    let aiW ← normalizeLanguageBuckets (rawData.get "aiWidgets") "killList.aiWidgets"
    let cookies ← normalizeLanguageBuckets (rawData.get "cookies") "killList.cookies"
    .ok (.killList
      { version := jsOr (rawData.get "version") (.str "1.0.0")
        lastUpdated := jsOrNull (rawData.get "lastUpdated") }
      (ensureArray (rawData.get "locales")) ads aiT aiW cookies)
  | .preserveList => do
    let processed ← normalizePreserveListEntries (rawData.get "entries")
    .ok (.preserveList
      { version := jsOr (rawData.get "version") (.str "1.0.0")
        lastUpdated := jsOrNull (rawData.get "lastUpdated") }
      (ensureArray (rawData.get "locales")) processed.1)

/-- An `Option String` field rendered back to the JS value it came from. -/
def optStrJ : Option String → JVal
  | some s => .str s
  | none => .null

/-- The JS object a normalized fallback-pattern denotes (construction order of
src/background.js:143-148). -/
def FallbackPatterns.toJVal (fp : FallbackPatterns) : JVal :=
  .obj [("id", optStrJ fp.id), ("class", optStrJ fp.«class»)]

/-- The JS object a normalized DOM entry denotes (construction order of
src/background.js:150-166). -/
def DomEntry.toJVal (d : DomEntry) : JVal :=
  .obj
    [("id", .str d.id), ("site", d.site), ("feature", d.feature), ("url", d.url),
     ("selector", .str d.selector), ("cssPath", optStrJ d.cssPath),
     ("jsPath", optStrJ d.jsPath), ("outerHTML", optStrJ d.outerHTML),
     ("text", optStrJ d.text), ("textContains", optStrJ d.textContains),
     ("fallbackPatterns",
       match d.fallbackPatterns with
       | some fp => fp.toJVal
       | none => .null),
     ("fingerprints", d.fingerprints), ("notes", optStrJ d.notes),
     ("category", d.category), ("locale", d.locale)]

/-- The JS object a locale bucket denotes (src/background.js:191-194). -/
def LocaleBucket.toJVal (b : LocaleBucket) : JVal :=
  .obj [("title", b.title), ("entries", .arr (b.entries.map DomEntry.toJVal))]

/-- The JS object a `normalizeLanguageBuckets` result denotes
(src/background.js:228). -/
def LangBuckets.toJVal (lb : LangBuckets) : JVal :=
  .obj
    [("locales", .obj (lb.locales.map fun kv => (kv.1, kv.2.toJVal))),
     ("combined", .arr (lb.combined.map DomEntry.toJVal))]

/-- The JS object a preserve-list element denotes (construction order of
src/background.js:252-268). -/
def PreserveElem.toJVal (d : PreserveElem) : JVal :=
  .obj
    [("id", .str d.id), ("site", d.site), ("feature", d.feature), ("url", d.url),
     ("selector", .str d.selector), ("cssPath", optStrJ d.cssPath),
     ("jsPath", optStrJ d.jsPath), ("outerHTML", optStrJ d.outerHTML),
     ("text", optStrJ d.text), ("textContains", optStrJ d.textContains),
     ("fallbackPatterns", d.fallbackPatterns), ("fingerprints", d.fingerprints),
     ("notes", optStrJ d.notes), ("locale", .str d.locale)]

/-- The JS object a preserve bucket denotes (src/background.js:271-274). -/
def PreserveBucket.toJVal (b : PreserveBucket) : JVal :=
  .obj [("title", b.title), ("elements", .arr (b.elements.map PreserveElem.toJVal))]

/-- The JS object a `normalizePreserveListEntries` result denotes
(src/background.js:278-279). -/
def PreserveEntries.toJVal (pe : PreserveEntries) : JVal :=
  .obj
    [("locales", .obj (pe.locales.map fun kv => (kv.1, kv.2.toJVal))),
     ("combined", .arr (pe.combined.map PreserveElem.toJVal))]

/-- The JS object a `metadata` block denotes (src/background.js:383-386). -/
def Metadata.toJVal (m : Metadata) : JVal :=
  .obj [("version", m.version), ("lastUpdated", m.lastUpdated)]

/-- The JS object a normalized CMP denotes (src/background.js:364-369). -/
def Cmp.toJVal (c : Cmp) : JVal :=
  .obj
    [("name", c.name), ("detect_selectors", .arr c.detect_selectors),
     ("reject_selectors", .arr c.reject_selectors),
     ("reject_text_patterns", .arr c.reject_text_patterns)]

/-- The JS object a normalized payload denotes, with the construction order of
`normalizeRuleData`'s return literals (src/background.js:317-410). -/
def NormalizedPayload.toJVal : NormalizedPayload → JVal
  | .aiTerms conservative aggressive =>
    .obj [("conservative", .arr conservative), ("aggressive", .arr aggressive)]
  | .aiWidgetSelectors selectors platforms text_patterns =>
    .obj
      [("selectors", .arr selectors), ("platforms", platforms),
       ("text_patterns", .obj (text_patterns.map fun kv => (kv.1, .arr kv.2)))]
  | .cookiePatterns reject_phrases excluded_domains cmps =>
    .obj
      [("reject_phrases", .arr reject_phrases),
       ("excluded_domains", .arr excluded_domains),
       ("cmps", .arr (cmps.map Cmp.toJVal))]
  | .killList metadata locales ads aiTermsB aiWidgets cookies =>
    .obj
      [("metadata", metadata.toJVal), ("locales", .arr locales),
       ("ads", ads.toJVal), ("aiTerms", aiTermsB.toJVal),
       ("aiWidgets", aiWidgets.toJVal), ("cookies", cookies.toJVal)]
  | .preserveList metadata locales entries =>
    .obj
      [("metadata", metadata.toJVal), ("locales", .arr locales),
       ("entries", entries.toJVal)]

/-- `deepEqual(left, right)` (src/background.js:286-288):
`JSON.stringify(left) === JSON.stringify(right)`, applied to the normalized
payloads the orchestrator compares. -/
def deepEqual (a b : NormalizedPayload) : Bool :=
  a.toJVal.stringify == b.toJVal.stringify

/-- `RULE_CACHE_TTL_MS` (src/background.js:66): 6 hours, in milliseconds. -/
def RULE_CACHE_TTL_MS : Int := 1000 * 60 * 60 * 6

/-- `FALLBACK_RETRY_MS` (src/background.js:67): 15 minutes, in milliseconds. -/
def FALLBACK_RETRY_MS : Int := 1000 * 60 * 15

/-- `INDEX_CACHE_TTL_MS` (src/background.js:38): 1 hour, in milliseconds. -/
def INDEX_CACHE_TTL_MS : Int := 1000 * 60 * 60 * 1

/-- A rule record as built by `fetchRuleFromCdn` / `loadFallbackRule` and
cached by `retrieveRule`. `verified`/`hash` are absent (`undefined`) on
fallback records in the source; absence is modelled as `false`/`none`. -/
structure RuleRecord where
  category : Category
  data : NormalizedPayload
  source : String
  url : String
  fetchedAt : Int
  lastError : Option String
  lastFailureAt : Option Int
  verified : Bool
  hash : Option String
deriving Repr

/-- `isRecordFresh(record)` (src/background.js:415-423): provenance-dependent
TTL, 6 h for `source === 'cdn'` records and 15 min otherwise. A missing
record, or a falsy `fetchedAt` (0), is never fresh. -/
def isRecordFresh (now : Int) : Option RuleRecord → Bool
  | none => false
  | some r =>
    if r.fetchedAt = 0 then false
    else
      let ttl := if r.source = "cdn" then RULE_CACHE_TTL_MS else FALLBACK_RETRY_MS
      now - r.fetchedAt < ttl

/-- Outcome of `fetchWithTimeout` when it resolves with a response
(src/background.js:293-313); a rejection (network error / timeout) is the
`Except.error` side of the oracles below. -/
structure HttpResponse where
  ok : Bool
  status : Int
  text : String

/-- `fetchIndexManifest()` (src/background.js:469-511): serves a cached
manifest younger than 1 h, otherwise fetches; every failure (network error,
non-ok status, JSON parse error, missing/invalid `files`) is caught and
yields `none` (the source returns `null`). `cachedEntry` is the stored
`ruleCache:index` value (data, fetchedAt); `response` the outcome of
`fetchWithTimeout(INDEX_MANIFEST_URL)`; `parseJson` the `response.json()`
oracle. -/
def fetchIndexManifest (cachedEntry : Option (JVal × Int)) (now : Int)
    (response : Except String HttpResponse)
    (parseJson : String → Except String JVal) : Option JVal :=
  let fetchFresh : Option JVal :=
    match response with
    | .error _ => none
    | .ok resp =>
      if !resp.ok then none
      else
        match parseJson resp.text with
        | .error _ => none
        | .ok manifest =>
          let files := manifest.get "files"
          if files.truthy && files.typeofObject then some manifest else none
  match cachedEntry with
  | some (data, fetchedAt) =>
    if now - fetchedAt < INDEX_CACHE_TTL_MS then some data else fetchFresh
  | none => fetchFresh

/-- Observable actions of one `fetchRuleFromCdn` run. -/
inductive FEvent where
  | fetch (url : String)
  | hashCheck (expected actual : String)
  | parsed
  | normalized
deriving Repr, DecidableEq

/-- The catch-all wrapper of `fetchRuleFromCdn`
(src/background.js:581-582). -/
def cdnWrap (c : Category) (msg : String) : String :=
  s!"CDN fetch failed for {c.key}: {msg}"

/-- The integrity-mismatch error text (src/background.js:552-556), with the
expected and actual digests truncated to 32 characters. -/
def integrityMsg (c : Category) (expected actual : String) : String :=
  s!"Integrity check FAILED for {c.key}:\n  Expected: {expected.take 32}...\n  Got:      {actual.take 32}..."

/-- The `try` block of `fetchRuleFromCdn` (src/background.js:542-583) once the
URL and expected digest have been determined: fetch, verify the digest of the
raw text when a (truthy) expected digest exists, and only then parse and
normalize. -/
def fetchRuleFromCdnBody (c : Category) (url : String) (expected : Option String)
    (response : String → Except String HttpResponse) (sha256 : String → String)
    (parseJson : String → Except String JVal) (now : Int) :
    Except String RuleRecord × List FEvent :=
  let parseStage (rawText : String) (evs : List FEvent) :
      Except String RuleRecord × List FEvent :=
    match parseJson rawText with
    | .error pe =>
      (.error (cdnWrap c s!"Invalid JSON received from CDN: {pe}"), evs ++ [.parsed])
    | .ok json =>
      match normalizeRuleData c json with
      | .error ne => (.error (cdnWrap c ne), evs ++ [.parsed, .normalized])
      | .ok data =>
        (.ok
          { category := c, data := data, source := "cdn", url := url,
            fetchedAt := now, lastError := none, lastFailureAt := none,
            verified := expected.isSome, hash := expected },
         evs ++ [.parsed, .normalized])
  match response url with
  | .error e => (.error (cdnWrap c e), [.fetch url])
  | .ok resp =>
    if !resp.ok then
      (.error (cdnWrap c s!"CDN responded with HTTP {resp.status}"), [.fetch url])
    else
      match expected with
      | some exp =>
        if exp ≠ "" then
          let actual := sha256 resp.text
          if actual ≠ exp then
            (.error (cdnWrap c (integrityMsg c exp actual)), [.fetch url, .hashCheck exp actual])
          else parseStage resp.text [.fetch url, .hashCheck exp actual]
        else parseStage resp.text [.fetch url]
      | none => parseStage resp.text [.fetch url]

/-- `fetchRuleFromCdn(category)` (src/background.js:534-583), with the result
of `fetchIndexManifest` passed in (`none` models the `null` return). The
manifest chain `manifest && manifest.files && manifest.files[category]`
selects URL and expected digest; otherwise the hardcoded `RULE_ENDPOINTS`
URL is used with no digest. A truthy `files[category]` whose `sha256` is not
a string makes the logging call `expectedHash.substring(0, 16)` throw an
uncaught TypeError (src/background.js:546). -/
def fetchRuleFromCdn (c : Category) (manifest : Option JVal)
    (response : String → Except String HttpResponse) (sha256 : String → String)
    (parseJson : String → Except String JVal) (now : Int) :
    Except String RuleRecord × List FEvent :=
  let mval := match manifest with | some m => m | none => JVal.null
  let fileInfo :=
    if mval.truthy && (mval.get "files").truthy && ((mval.get "files").get c.key).truthy then
      some ((mval.get "files").get c.key)
    else none
  match fileInfo with
  | some fi =>
    match fi.get "sha256" with
    | .str exp =>
      fetchRuleFromCdnBody c (jsString (fi.get "url")) (some exp) response sha256 parseJson now
    | _ => (.error "TypeError: expectedHash.substring is not a function", [])
  | none =>
    fetchRuleFromCdnBody c (RULE_ENDPOINTS c) none response sha256 parseJson now

/-- `FALLBACK_RULE_FILES` (src/background.js:56-62). -/
def FALLBACK_RULE_FILES : Category → String
  | .aiTerms => "utils/ai_terms.json"
  | .aiWidgetSelectors => "utils/ai_widget_selectors.json"
  | .cookiePatterns => "utils/cookie_patterns.json"
  | .killList => "utils/kill_list.json"
  | .preserveList => "utils/preserve_list.json"

/-- `loadFallbackRule(category)` (src/background.js:588-620): loads the
packaged file (via `chrome.runtime.getURL`, modelled by `getURL`), parses and
normalizes it with the same normalizer; any failure propagates. The returned
record carries `source: 'fallback-local'` and no `verified`/`hash` fields. -/
def loadFallbackRule (c : Category) (getURL : String → String)
    (response : String → Except String HttpResponse)
    (parseJson : String → Except String JVal) (now : Int) :
    Except String RuleRecord :=
  let path := FALLBACK_RULE_FILES c
  let fallbackUrl := getURL path
  match response fallbackUrl with
  | .error e => .error e
  | .ok resp =>
    if !resp.ok then
      .error s!"Failed to load fallback from {path} (HTTP {resp.status})"
    else
      match parseJson resp.text with
      | .error pe => .error s!"Invalid JSON in fallback file {path}: {pe}"
      | .ok json =>
        match normalizeRuleData c json with
        | .error ne => .error ne
        | .ok data =>
          .ok
            { category := c, data := data, source := "fallback-local",
              url := fallbackUrl, fetchedAt := now, lastError := none,
              lastFailureAt := none, verified := false, hash := none }

/-- Observable actions of one `retrieveRule` call. -/
inductive REvent where
  | fetchAttempt
  | fallbackAttempt
  | memWrite (r : RuleRecord)
  | storageWrite (r : RuleRecord)
  | broadcast (source : String) (fetchedAt : Int)
deriving Repr

/-- The inputs a single `retrieveRule(category, {forceRefresh})` call reads
from its environment (src/background.js:647-723): the in-memory cache entry,
the already-validated result of `loadRuleFromStorage` (which only ever yields
records with `data` present), and the outcomes of `fetchRuleFromCdn` and
`loadFallbackRule` should they be invoked. The in-flight map is empty for
this call; coalescing of concurrent calls is modelled by `DedupStep`. -/
structure RetrieveEnv where
  forceRefresh : Bool
  now : Int
  memoryRecord : Option RuleRecord
  storedRecord : Option RuleRecord
  fetchOutcome : Except String RuleRecord
  fallbackOutcome : Except String RuleRecord

/-- The async fetch closure of `retrieveRule` (src/background.js:660-712):
on CDN success cache + persist the new record and broadcast when the payload
deep-differs from the prior one (or none existed); on CDN failure prefer the
stored record (only `lastError`/`lastFailureAt` updated), then the packaged
fallback, and fail only when both are unavailable. -/
def retrieveRuleFetchPhase (c : Category) (env : RetrieveEnv) :
    Except String RuleRecord × List REvent :=
  let priorData :=
    match env.memoryRecord with
    | some m => some m.data
    | none =>
      match env.storedRecord with
      | some s => some s.data
      | none => none
  match env.fetchOutcome with
  | .ok rr =>
    let doBroadcast :=
      match priorData with
      | none => true
      | some pd => !deepEqual pd rr.data
    (.ok rr,
     if doBroadcast then
       [.fetchAttempt, .memWrite rr, .storageWrite rr, .broadcast rr.source rr.fetchedAt]
     else [.fetchAttempt, .memWrite rr, .storageWrite rr])
  | .error ce =>
    match env.storedRecord with
    | some sr =>
      let record := { sr with lastError := some ce, lastFailureAt := some env.now }
      (.ok record, [.fetchAttempt, .memWrite record, .storageWrite record])
    | none =>
      match env.fallbackOutcome with
      | .ok fb =>
        let record := { fb with lastError := some ce, lastFailureAt := some env.now }
        (.ok record, [.fetchAttempt, .fallbackAttempt, .memWrite record, .storageWrite record])
      | .error fe =>
        (.error s!"No rule data available for {c.key}. CDN error: {ce}. Fallback error: {fe}",
         [.fetchAttempt, .fallbackAttempt])

/-- Lines 656-659 of `retrieveRule`: a fresh stored record is promoted to the
in-memory cache and served without fetching. -/
def retrieveRuleStoragePhase (c : Category) (env : RetrieveEnv) :
    Except String RuleRecord × List REvent :=
  match env.storedRecord with
  | some s =>
    if !env.forceRefresh && isRecordFresh env.now (some s) then (.ok s, [.memWrite s])
    else retrieveRuleFetchPhase c env
  | none => retrieveRuleFetchPhase c env

/-- `retrieveRule(category, {forceRefresh})` (src/background.js:647-723) for a
single call (empty in-flight map), returning the result handed to the caller
(`cloneData` is a pure deep copy, the identity here) and the ordered
observable actions. -/
def retrieveRule (c : Category) (env : RetrieveEnv) :
    Except String RuleRecord × List REvent :=
  match env.memoryRecord with
  | some m =>
    if !env.forceRefresh && isRecordFresh env.now (some m) then (.ok m, [])
    else retrieveRuleStoragePhase c env
  | none => retrieveRuleStoragePhase c env

/-- Is the event a change broadcast? -/
def REvent.isBroadcast : REvent → Bool
  | .broadcast _ _ => true
  | _ => false

/-- Number of change broadcasts among a call's events. -/
def broadcastCount (evs : List REvent) : Nat :=
  (evs.filter REvent.isBroadcast).length

/-- Was the packaged fallback loader invoked? -/
def fallbackAttempted (evs : List REvent) : Bool :=
  evs.any fun e =>
    match e with
    | .fallbackAttempt => true
    | _ => false

/-- Was a remote fetch started? -/
def fetchAttempted (evs : List REvent) : Bool :=
  evs.any fun e =>
    match e with
    | .fetchAttempt => true
    | _ => false

/-!
Request coalescing (`pendingRuleFetches`, src/background.js:71-73 and
660-723) under the single-threaded event model of the service worker: the
steps below are the atomic synchronous segments of `retrieveRule` that touch
the in-flight map; between them the task is suspended at an `await`.
-/

/-- Shared per-category state of the deduplication mechanism:
whether `pendingRuleFetches` holds an entry for the category, how many
fetches were ever started, and how many are currently in flight. -/
structure DedupState where
  pending : Bool
  fetchStarts : Nat
  inFlight : Nat
deriving Repr, DecidableEq

/-- What a caller observed at its check of the in-flight map:
it joined the existing promise, or it started (and owns) a new fetch. -/
inductive DedupObs where
  | joined
  | started
deriving Repr, DecidableEq

/-- Lines 661-663 and 665-717 as one synchronous segment: a caller that finds
`pendingRuleFetches.has(category)` awaits the existing promise (no new
fetch); otherwise it creates the fetch promise and registers it in the map
before the event loop can run anything else (the `set` on line 717 executes
synchronously after the promise body suspends at its first `await`). -/
def dedupCheck (s : DedupState) : DedupState × DedupObs :=
  if s.pending then (s, .joined)
  else
    ({ pending := true, fetchStarts := s.fetchStarts + 1, inFlight := s.inFlight + 1 }, .started)

/-- Lines 719-723: the `finally` clause of the owning caller removes the map
entry when the fetch promise settles — on success and on failure alike
(`outcome` is ignored). -/
def dedupComplete (s : DedupState) (outcome : Bool) : DedupState :=
  let _ := outcome
  { pending := false, fetchStarts := s.fetchStarts, inFlight := s.inFlight - 1 }

/-- One scheduler step: some caller runs its map check, or the owner's fetch
settles with some outcome. -/
inductive DedupStep where
  | check
  | complete (outcome : Bool)
deriving Repr, DecidableEq

/-- Run a sequence of atomic segments against the shared state. -/
def dedupRun (s : DedupState) : List DedupStep → DedupState
  | [] => s
  | .check :: rest => dedupRun (dedupCheck s).1 rest
  | .complete oc :: rest => dedupRun (dedupComplete s oc) rest

/-- A trace is well formed when a completion only happens while its fetch is
in flight (a promise settles once, and only after it was started). -/
def dedupWF (s : DedupState) : List DedupStep → Prop
  | [] => True
  | .check :: rest => dedupWF (dedupCheck s).1 rest
  | .complete oc :: rest => s.inFlight = 1 ∧ s.pending = true ∧ dedupWF (dedupComplete s oc) rest

/-- The state invariant tied to the in-flight map: the map entry exists iff a
fetch is in flight, and never more than one is. -/
def dedupInv (s : DedupState) : Prop :=
  s.inFlight ≤ 1 ∧ (s.pending = true ↔ s.inFlight = 1)

/-- Did the call get served from the cache (fresh in-memory or fresh stored
record, without `forceRefresh`)? Mirrors the conditions of
src/background.js:651-659. -/
def cacheHit (env : RetrieveEnv) : Bool :=
  (!env.forceRefresh && isRecordFresh env.now env.memoryRecord) ||
  (!env.forceRefresh && isRecordFresh env.now env.storedRecord)

/-- `priorData = memoryRecord?.data || storedRecord?.data || null`
(src/background.js:661). -/
def priorPayload (env : RetrieveEnv) : Option NormalizedPayload :=
  match env.memoryRecord with
  | some m => some m.data
  | none =>
    match env.storedRecord with
    | some s => some s.data
    | none => none

/-! Concrete fixtures used in the closed instantiations below. -/

/-- A successful HTTP response carrying the body `"body"`. -/
def respOK : HttpResponse := ⟨true, 200, "body"⟩

/-- A response oracle answering every URL with `respOK`. -/
def respondOK : String → Except String HttpResponse := fun _ => .ok respOK

/-- A raw aiTerms document with one conservative term. -/
def aiTermsRaw : JVal := .obj [("conservative", .arr [.str "t"])]

/-- Its normalization. -/
def payT : NormalizedPayload := .aiTerms [.str "t"] []

/-- A parse oracle yielding `aiTermsRaw` for any text. -/
def parseAiTerms : String → Except String JVal := fun _ => .ok aiTermsRaw

/-- A digest oracle returning `"def"` for any text. -/
def shaDef : String → String := fun _ => "def"

/-- A manifest whose `files.aiTerms` entry expects digest `"abc"` at URL
`"U"`. -/
def maniFix : JVal :=
  .obj [("files", .obj [("aiTerms", .obj [("url", .str "U"), ("sha256", .str "abc")])])]

/-- A stale remote record (fetched at 5 ms). -/
def cdnRecStale : RuleRecord :=
  ⟨.aiTerms, payT, "cdn", "u", 5, none, none, true, some "abc"⟩

/-- A fresh remote record (fetched at 999 ms). -/
def cdnRecNew : RuleRecord :=
  ⟨.aiTerms, payT, "cdn", "u", 999, none, none, true, some "abc"⟩

/-- A packaged-fallback record carrying the same payload. -/
def fbRec : RuleRecord :=
  ⟨.aiTerms, payT, "fallback-local", "u2", 999, none, none, false, none⟩

/-- First request (no cache at all), remote fetch succeeds. -/
def envRemoteFix : RetrieveEnv := ⟨false, 1000000000, none, none, .ok cdnRecNew, .error "unused"⟩

/-- First request (no cache at all), remote fetch fails, fallback loads the
same payload. -/
def envFallbackFix : RetrieveEnv := ⟨false, 1000000000, none, none, .error "boom", .ok fbRec⟩

/-- Remote fetch fails while a (stale) stored record exists. -/
def envStoredFix : RetrieveEnv :=
  ⟨false, 1000000000, none, some cdnRecStale, .error "boom", .error "fbfail"⟩

/-- Total failure: no cache, failing fetch, failing fallback. -/
def envTotalFix : RetrieveEnv := ⟨false, 1000000000, none, none, .error "boom", .error "fbfail"⟩

/-- A fresh in-memory record at time 6 ms (age 1 ms). -/
def envFreshFix : RetrieveEnv := ⟨false, 6, some cdnRecStale, none, .error "x", .error "y"⟩

/-- A kill-list document whose flat `ads` array holds one entry without a
selector. -/
def killBadFix : JVal := .obj [("ads", .arr [.obj [("site", .str "x")]])]

/-- A preserve-list document whose single locale group holds only an entry
without a selector. -/
def preserveBadFix : JVal :=
  .obj [("entries", .arr [.obj [("locale", .str "fr"), ("elements", .arr [.obj [("site", .str "x")]])]])]

/-- A raw preserve element with a selector, and its normalization at FR[0]. -/
def rawElemFix : JVal := .obj [("selector", .str ".x")]

/-- `preserveElem "FR" 0 rawElemFix`. -/
def pelemFix : PreserveElem :=
  ⟨"preserve-FR-0", .null, .null, .null, ".x", none, none, none, none, none, .null, .obj [],
   none, "FR"⟩

/-! ### Helper lemmas -/

theorem preserveElem_eq_none_iff (k : String) (i : Nat) (e : JVal) :
    preserveElem k i e = none ↔ jsSelector e = "" := by
  simp only [preserveElem]
  split <;> simp_all

theorem preserveElem_some_selector (k : String) (i : Nat) (e : JVal) (pe : PreserveElem)
    (h : preserveElem k i e = some pe) : pe.selector ≠ "" := by
  simp only [preserveElem] at h
  split at h
  · exact absurd h (by simp)
  · cases h
    simpa using by assumption

theorem preserveGroupElems_count (k : String) :
    ∀ (i : Nat) (elems : List JVal),
      (preserveGroupElems k i elems).1.length = (elems.filter fun e => jsSelector e != "").length ∧
      (preserveGroupElems k i elems).2.length = (elems.filter fun e => jsSelector e == "").length
  | _, [] => by simp [preserveGroupElems]
  | i, e :: rest => by
    have ih := preserveGroupElems_count k (i + 1) rest
    by_cases h : jsSelector e = ""
    · have hn : preserveElem k i e = none := (preserveElem_eq_none_iff k i e).mpr h
      simp [preserveGroupElems, hn, h, ih.1, ih.2]
    · have hs : preserveElem k i e ≠ none := fun hc => h ((preserveElem_eq_none_iff k i e).mp hc)
      obtain ⟨pe, hpe⟩ := Option.ne_none_iff_exists'.mp hs
      simp [preserveGroupElems, hpe, h, ih.1, ih.2]

theorem preserveGroupElems_selector_nonempty (k : String) :
    ∀ (i : Nat) (elems : List JVal) (pe : PreserveElem),
      pe ∈ (preserveGroupElems k i elems).1 → pe.selector ≠ ""
  | _, [], _ => by simp [preserveGroupElems]
  | i, e :: rest, pe => by
    intro hmem
    have ih := preserveGroupElems_selector_nonempty k (i + 1) rest
    by_cases h : jsSelector e = ""
    · have hn : preserveElem k i e = none := (preserveElem_eq_none_iff k i e).mpr h
      simp only [preserveGroupElems, hn] at hmem
      exact ih pe hmem
    · have hs : preserveElem k i e ≠ none := fun hc => h ((preserveElem_eq_none_iff k i e).mp hc)
      obtain ⟨pe0, hpe⟩ := Option.ne_none_iff_exists'.mp hs
      simp only [preserveGroupElems, hpe, List.mem_cons] at hmem
      rcases hmem with rfl | hmem
      · exact preserveElem_some_selector k i e pe hpe
      · exact ih pe hmem

theorem normalizeDomEntry_error_iff (e : JVal) (cat : String) (i : Nat) (loc : JVal) :
    (∃ msg, normalizeDomEntry e cat i loc = .error msg) ↔ jsSelector e = "" := by
  simp only [normalizeDomEntry]
  split <;> simp_all

theorem normalizeDomEntryList_error_iff (cat : String) (loc : JVal) :
    ∀ (i : Nat) (entries : List JVal),
      (∃ msg, normalizeDomEntryList cat loc i entries = .error msg) ↔
        ∃ e ∈ entries, jsSelector e = ""
  | _, [] => by simp [normalizeDomEntryList]
  | i, e :: rest => by
    have ih := normalizeDomEntryList_error_iff cat loc (i + 1) rest
    by_cases h : jsSelector e = ""
    · constructor
      · intro _
        exact ⟨e, List.mem_cons_self e rest, h⟩
      · intro _
        refine ⟨s!"Missing selector in {cat} entry at index {i}", ?_⟩
        simp [normalizeDomEntryList, normalizeDomEntry, h, Bind.bind, Except.bind]
    · obtain ⟨d, hd⟩ : ∃ d, normalizeDomEntry e cat i loc = .ok d := by
        simp [normalizeDomEntry, h]
      constructor
      · rintro ⟨msg, hmsg⟩
        simp only [normalizeDomEntryList, hd, Bind.bind, Except.bind] at hmsg
        cases hrest : normalizeDomEntryList cat loc (i + 1) rest with
        | error m =>
          obtain ⟨x, hx, hsel⟩ := ih.mp ⟨m, hrest⟩
          exact ⟨x, List.mem_cons_of_mem e hx, hsel⟩
        | ok ds =>
          rw [hrest] at hmsg
          simp at hmsg
      · rintro ⟨x, hx, hsel⟩
        rcases List.mem_cons.mp hx with rfl | hx'
        · exact absurd hsel h
        · obtain ⟨m, hm⟩ := ih.mpr ⟨x, hx', hsel⟩
          refine ⟨m, ?_⟩
          simp [normalizeDomEntryList, hd, hm, Bind.bind, Except.bind]

/-! ### Claim theorems -/

/-- C5 (counterexample): the claim asserts that for all five categories an
input missing the primary field raises a schema error; but
`normalizeRuleData('killList', {})` succeeds with an all-empty payload
instead of raising. -/
theorem C5_killList_missing_primary_ok_counterexample :
    normalizeRuleData Category.killList (JVal.obj []) =
      .ok (.killList ⟨.str "1.0.0", .null⟩ [] ⟨[], []⟩ ⟨[], []⟩ ⟨[], []⟩ ⟨[], []⟩) := by
  rfl

/-- C5 (amended): `normalizeRuleData` raises an error naming the category and
field when the required primary array is absent or empty for the three list
categories (`aiTerms.conservative`, `aiWidgetSelectors.selectors`,
`cookiePatterns.reject_phrases`); for `killList` and `preserveList` a missing
primary section yields an empty payload without error. -/
theorem C5_schema_errors_amended :
    (∀ raw : JVal, ensureArray (raw.get "conservative") = [] →
      normalizeRuleData .aiTerms raw =
        .error "aiTerms.conservative must contain at least one entry") ∧
    (∀ raw : JVal, ensureArray (raw.get "selectors") = [] →
      normalizeRuleData .aiWidgetSelectors raw =
        .error "aiWidgetSelectors.selectors must contain at least one entry") ∧
    (∀ raw : JVal, ensureArray (raw.get "reject_phrases") = [] →
      normalizeRuleData .cookiePatterns raw =
        .error "cookiePatterns.reject_phrases must contain at least one entry") ∧
    normalizeRuleData .killList (JVal.obj []) =
      .ok (.killList ⟨.str "1.0.0", .null⟩ [] ⟨[], []⟩ ⟨[], []⟩ ⟨[], []⟩ ⟨[], []⟩) ∧
    normalizeRuleData .preserveList (JVal.obj []) =
      .ok (.preserveList ⟨.str "1.0.0", .null⟩ [] ⟨[], []⟩) := by
  refine ⟨?_, ?_, ?_, rfl, rfl⟩ <;> intro raw h <;> simp [normalizeRuleData, h]

/-- C5 (witness): the amended theorem applied to the empty document for the
aiTerms category. -/
theorem C5_schema_errors_witness :
    normalizeRuleData .aiTerms (JVal.obj []) =
      .error "aiTerms.conservative must contain at least one entry" :=
  C5_schema_errors_amended.1 (JVal.obj []) rfl

/-- C6 (counterexample): the claim asserts that for both DOM categories an
entry lacking a selector is dropped with a warning and normalization
continues; but for the kill-list `normalizeDomEntry` throws, aborting the
whole category on the first selector-less entry. -/
theorem C6_killList_selector_abort_counterexample :
    normalizeRuleData .killList killBadFix =
      .error "Missing selector in killList.ads.GLOBAL entry at index 0" := by
  rfl

/-- C6 (amended): only the preserve-list drops selector-less entries (one
logged warning per dropped entry, survivors keep a non-empty selector, and an
empty result after dropping is accepted, not an error); kill-list
normalization instead fails exactly when some entry lacks a non-empty string
selector. -/
theorem C6_drop_behavior_amended :
    (∀ (k : String) (i : Nat) (elems : List JVal),
       (preserveGroupElems k i elems).1.length =
         (elems.filter fun e => jsSelector e != "").length ∧
       (preserveGroupElems k i elems).2.length =
         (elems.filter fun e => jsSelector e == "").length) ∧
    (∀ (k : String) (i : Nat) (elems : List JVal) (pe : PreserveElem),
       pe ∈ (preserveGroupElems k i elems).1 → pe.selector ≠ "") ∧
    (∀ (cat : String) (loc : JVal) (i : Nat) (entries : List JVal),
       (∃ msg, normalizeDomEntryList cat loc i entries = .error msg) ↔
         ∃ e ∈ entries, jsSelector e = "") ∧
    normalizeRuleData .preserveList preserveBadFix =
      .ok (.preserveList ⟨.str "1.0.0", .null⟩ [] ⟨[("FR", ⟨.null, []⟩)], []⟩) :=
  ⟨preserveGroupElems_count, preserveGroupElems_selector_nonempty,
   fun cat loc i entries => normalizeDomEntryList_error_iff cat loc i entries, rfl⟩

/-- C6 (witness): the amended theorem instantiated on concrete entries — a
surviving preserve element keeps its selector, and a kill-list entry set with
a selector-less entry normalizes to an error. -/
theorem C6_drop_behavior_witness :
    pelemFix.selector ≠ "" ∧
    ∃ msg, normalizeDomEntryList "killList.ads.GLOBAL" (.str "GLOBAL") 0 [JVal.obj []] =
      .error msg :=
  ⟨C6_drop_behavior_amended.2.1 "FR" 0 [rawElemFix] pelemFix
      (by rw [show (preserveGroupElems "FR" 0 [rawElemFix]).1 = [pelemFix] from rfl]
          exact List.mem_singleton_self _),
   (C6_drop_behavior_amended.2.2.1 "killList.ads.GLOBAL" (.str "GLOBAL") 0 [JVal.obj []]).mpr
      ⟨JVal.obj [], List.mem_singleton_self _, rfl⟩⟩

theorem JVal.truthy_obj (fs : List (String × JVal)) : (JVal.obj fs).truthy = true := rfl

theorem fetchPhase_cache_sources (c : Category) (env : RetrieveEnv)
    (hf : env.fetchOutcome.isOk = false) (r : RuleRecord)
    (hw : REvent.memWrite r ∈ (retrieveRuleFetchPhase c env).2 ∨
          REvent.storageWrite r ∈ (retrieveRuleFetchPhase c env).2) :
    (∃ sr, env.storedRecord = some sr ∧ r.data = sr.data) ∨
    (∃ fb, env.fallbackOutcome = .ok fb ∧ r.data = fb.data) := by
  cases hfo : env.fetchOutcome with
  | ok rr => rw [hfo] at hf; simp [Except.isOk, Except.toBool] at hf
  | error ce =>
    cases hst : env.storedRecord with
    | some sr =>
      simp [retrieveRuleFetchPhase, hfo, hst] at hw
      left
      exact ⟨sr, rfl, by rcases hw with rfl | rfl <;> rfl⟩
    | none =>
      cases hfb : env.fallbackOutcome with
      | ok fb =>
        simp [retrieveRuleFetchPhase, hfo, hst, hfb] at hw
        right
        exact ⟨fb, rfl, by rcases hw with rfl | rfl <;> rfl⟩
      | error fe =>
        simp [retrieveRuleFetchPhase, hfo, hst, hfb] at hw

/-- On a failed fetch, every record `retrieveRule` writes to the in-memory
cache or persistent storage carries the data of the stored record or of the
fallback record — never data derived from the failed fetch. -/
theorem retrieveRule_error_cache_sources (c : Category) (env : RetrieveEnv)
    (hf : env.fetchOutcome.isOk = false) (r : RuleRecord)
    (hw : REvent.memWrite r ∈ (retrieveRule c env).2 ∨
          REvent.storageWrite r ∈ (retrieveRule c env).2) :
    (∃ sr, env.storedRecord = some sr ∧ r.data = sr.data) ∨
    (∃ fb, env.fallbackOutcome = .ok fb ∧ r.data = fb.data) := by
  have hstore : REvent.memWrite r ∈ (retrieveRuleStoragePhase c env).2 ∨
      REvent.storageWrite r ∈ (retrieveRuleStoragePhase c env).2 →
      (∃ sr, env.storedRecord = some sr ∧ r.data = sr.data) ∨
      (∃ fb, env.fallbackOutcome = .ok fb ∧ r.data = fb.data) := by
    intro hw'
    cases hst : env.storedRecord with
    | some s =>
      by_cases hc : (!env.forceRefresh && isRecordFresh env.now (some s)) = true
      · simp [retrieveRuleStoragePhase, hst, hc] at hw'
        exact Or.inl ⟨s, rfl, by rw [hw']⟩
      · have hcf := Bool.eq_false_iff.mpr hc
        simp only [retrieveRuleStoragePhase, hst, hcf, Bool.false_eq_true, if_false] at hw'
        have := fetchPhase_cache_sources c env hf r hw'
        rwa [hst] at this
    | none =>
      simp only [retrieveRuleStoragePhase, hst] at hw'
      have := fetchPhase_cache_sources c env hf r hw'
      rwa [hst] at this
  cases hmem : env.memoryRecord with
  | some m =>
    by_cases hc : (!env.forceRefresh && isRecordFresh env.now (some m)) = true
    · simp [retrieveRule, hmem, hc] at hw
    · have hcf := Bool.eq_false_iff.mpr hc
      simp only [retrieveRule, hmem, hcf, Bool.false_eq_true, if_false] at hw
      exact hstore hw
  | none =>
    simp only [retrieveRule, hmem] at hw
    exact hstore hw

/-- C1: when the manifest supplies an expected digest for a category and the
computed SHA-256 of the fetched raw text differs from it, `fetchRuleFromCdn`
fails with an integrity error whose message embeds the expected and actual
digests truncated to 32 characters; the payload is never parsed or
normalized (the result does not depend on the parser at all), and on a
failed fetch `retrieveRule` only ever caches stored-record or
fallback-record data. -/
theorem C1_integrity_mismatch_is_fatal
    (c : Category) (m : JVal) (mfs fi : List (String × JVal)) (exp : String)
    (response : String → Except String HttpResponse) (sha256 : String → String)
    (parseJson : String → Except String JVal) (now : Int) (resp : HttpResponse)
    (hfiles : m.get "files" = JVal.obj mfs)
    (hfi : (JVal.obj mfs).get c.key = JVal.obj fi)
    (hsha : (JVal.obj fi).get "sha256" = JVal.str exp)
    (hresp : response (jsString ((JVal.obj fi).get "url")) = .ok resp)
    (hok : resp.ok = true)
    (hexp : exp ≠ "")
    (hmis : sha256 resp.text ≠ exp) :
    fetchRuleFromCdn c (some m) response sha256 parseJson now =
      (.error (cdnWrap c (integrityMsg c exp (sha256 resp.text))),
       [.fetch (jsString ((JVal.obj fi).get "url")), .hashCheck exp (sha256 resp.text)]) ∧
    (∃ pre mid post, cdnWrap c (integrityMsg c exp (sha256 resp.text)) =
      pre ++ exp.take 32 ++ mid ++ (sha256 resp.text).take 32 ++ post) ∧
    (∀ parse2 : String → Except String JVal,
      fetchRuleFromCdn c (some m) response sha256 parse2 now =
        fetchRuleFromCdn c (some m) response sha256 parseJson now) ∧
    (∀ env : RetrieveEnv, env.fetchOutcome.isOk = false →
      ∀ r : RuleRecord,
        REvent.memWrite r ∈ (retrieveRule c env).2 ∨
          REvent.storageWrite r ∈ (retrieveRule c env).2 →
        (∃ sr, env.storedRecord = some sr ∧ r.data = sr.data) ∨
        (∃ fb, env.fallbackOutcome = .ok fb ∧ r.data = fb.data)) := by
  have hmobj : m.truthy = true := by
    cases m <;> first | rfl | simp [JVal.get] at hfiles
  have key : ∀ p : String → Except String JVal,
      fetchRuleFromCdn c (some m) response sha256 p now =
        (.error (cdnWrap c (integrityMsg c exp (sha256 resp.text))),
         [.fetch (jsString ((JVal.obj fi).get "url")), .hashCheck exp (sha256 resp.text)]) := by
    intro p
    simp [fetchRuleFromCdn, fetchRuleFromCdnBody, hfiles, hfi, hsha, hresp, hmobj, hok,
          hexp, hmis, JVal.truthy_obj]
  refine ⟨key parseJson, ?_, fun p2 => (key p2).trans (key parseJson).symm,
    fun env hf r hw => retrieveRule_error_cache_sources c env hf r hw⟩
  refine ⟨"CDN fetch failed for " ++ c.key ++ ": " ++
      ("Integrity check FAILED for " ++ c.key ++ ":\n  Expected: "),
    "...\n  Got:      ", "...", ?_⟩
  simp [cdnWrap, integrityMsg, toString, String.append_assoc, String.append_empty]

set_option maxRecDepth 8192 in
/-- C1 (witness): the mismatch theorem instantiated on a concrete manifest
expecting digest `"abc"` while the body hashes to `"def"`. -/
theorem C1_integrity_witness :
    (fetchRuleFromCdn .aiTerms (some maniFix) respondOK shaDef parseAiTerms 7).1 =
      .error "CDN fetch failed for aiTerms: Integrity check FAILED for aiTerms:\n  Expected: abc...\n  Got:      def..." := by
  have h := C1_integrity_mismatch_is_fatal .aiTerms maniFix
      [("aiTerms", JVal.obj [("url", .str "U"), ("sha256", .str "abc")])]
      [("url", .str "U"), ("sha256", .str "abc")] "abc" respondOK shaDef parseAiTerms 7 respOK
      rfl rfl rfl rfl rfl (by decide) (by decide)
  rw [h.1]
  rfl

theorem fetchRuleFromCdnBody_ok (c : Category) (url : String) (expected : Option String)
    (response : String → Except String HttpResponse) (sha256 : String → String)
    (parseJson : String → Except String JVal) (now : Int)
    (r : RuleRecord) (evs : List FEvent)
    (h : fetchRuleFromCdnBody c url expected response sha256 parseJson now = (.ok r, evs)) :
    r.source = "cdn" ∧ r.verified = r.hash.isSome ∧ r.hash = expected ∧
    ∀ exp, expected = some exp → exp ≠ "" → FEvent.hashCheck exp exp ∈ evs := by
  unfold fetchRuleFromCdnBody at h
  cases hr : response url with
  | error e => rw [hr] at h; simp at h
  | ok resp =>
    rw [hr] at h
    by_cases hok : resp.ok = true
    · simp only [hok, Bool.not_true, Bool.false_eq_true, if_false] at h
      cases expected with
      | none =>
        cases hp : parseJson resp.text with
        | error pe => simp [hp] at h
        | ok json =>
          cases hn : normalizeRuleData c json with
          | error ne => simp [hp, hn] at h
          | ok data =>
            simp only [hp, hn] at h
            obtain ⟨h1, h2⟩ := Prod.mk.injEq .. ▸ h
            obtain rfl := (Except.ok.injEq .. ▸ h1)
            subst h2
            simp
      | some exp =>
        by_cases hne : exp = ""
        · subst hne
          simp only [ne_eq, not_true_eq_false, if_false, reduceIte] at h
          cases hp : parseJson resp.text with
          | error pe => simp [hp] at h
          | ok json =>
            cases hn : normalizeRuleData c json with
            | error ne => simp [hp, hn] at h
            | ok data =>
              simp only [hp, hn] at h
              obtain ⟨h1, h2⟩ := Prod.mk.injEq .. ▸ h
              obtain rfl := (Except.ok.injEq .. ▸ h1)
              subst h2
              simp
        · by_cases hmis : sha256 resp.text = exp
          · simp only [ne_eq, hne, not_false_eq_true, if_true, hmis, not_true_eq_false,
              if_false, reduceIte] at h
            cases hp : parseJson resp.text with
            | error pe => simp [hp] at h
            | ok json =>
              cases hn : normalizeRuleData c json with
              | error ne => simp [hp, hn] at h
              | ok data =>
                simp only [hp, hn] at h
                obtain ⟨h1, h2⟩ := Prod.mk.injEq .. ▸ h
                obtain rfl := (Except.ok.injEq .. ▸ h1)
                subst h2
                simp [hmis]
          · simp [ne_eq, hne, hmis] at h
    · have hok' : resp.ok = false := Bool.eq_false_iff.mpr hok
      simp [hok'] at h

/-- C2 (counterexample): the claim says no record produced by a remote fetch
can have the remote source tag with `verified = false`; but when the manifest
is unavailable `fetchRuleFromCdn` still returns `source = 'cdn'` with
`verified = false` and no digest. -/
theorem C2_remote_unverified_counterexample :
    fetchRuleFromCdn .aiTerms none respondOK shaDef parseAiTerms 7 =
      (.ok { category := .aiTerms, data := payT, source := "cdn",
             url := RULE_ENDPOINTS .aiTerms, fetchedAt := 7, lastError := none,
             lastFailureAt := none, verified := false, hash := none },
       [.fetch (RULE_ENDPOINTS .aiTerms), .parsed, .normalized]) := by
  rfl

/-- C2 (amended): every record produced by a successful remote fetch has
`source = 'cdn'`; `verified` is true exactly when a digest was available
(`hash` non-null), and whenever a non-empty digest is stored the digest
comparison that was performed succeeded with actual equal to expected. A
remote record has `verified = false` exactly when no digest was available. -/
theorem C2_remote_source_verified_amended
    (c : Category) (manifest : Option JVal)
    (response : String → Except String HttpResponse) (sha256 : String → String)
    (parseJson : String → Except String JVal) (now : Int)
    (r : RuleRecord) (evs : List FEvent)
    (h : fetchRuleFromCdn c manifest response sha256 parseJson now = (.ok r, evs)) :
    r.source = "cdn" ∧ r.verified = r.hash.isSome ∧
    ∀ exp, r.hash = some exp → exp ≠ "" → FEvent.hashCheck exp exp ∈ evs := by
  simp only [fetchRuleFromCdn] at h
  repeat' split at h
  · exact ⟨(fetchRuleFromCdnBody_ok _ _ _ _ _ _ _ _ _ h).1,
      (fetchRuleFromCdnBody_ok _ _ _ _ _ _ _ _ _ h).2.1,
      fun exp hexp => (fetchRuleFromCdnBody_ok _ _ _ _ _ _ _ _ _ h).2.2.2 exp
        (((fetchRuleFromCdnBody_ok _ _ _ _ _ _ _ _ _ h).2.2.1) ▸ hexp)⟩
  · simp at h
  · exact ⟨(fetchRuleFromCdnBody_ok _ _ _ _ _ _ _ _ _ h).1,
      (fetchRuleFromCdnBody_ok _ _ _ _ _ _ _ _ _ h).2.1,
      fun exp hexp => (fetchRuleFromCdnBody_ok _ _ _ _ _ _ _ _ _ h).2.2.2 exp
        (((fetchRuleFromCdnBody_ok _ _ _ _ _ _ _ _ _ h).2.2.1) ▸ hexp)⟩

/-- C2 (witness): the amended theorem applied to the manifest-less fetch of
the counterexample. -/
theorem C2_remote_source_verified_witness :
    ({ category := .aiTerms, data := payT, source := "cdn",
       url := RULE_ENDPOINTS .aiTerms, fetchedAt := 7, lastError := none,
       lastFailureAt := none, verified := false, hash := none : RuleRecord }).source = "cdn" ∧
    ({ category := .aiTerms, data := payT, source := "cdn",
       url := RULE_ENDPOINTS .aiTerms, fetchedAt := 7, lastError := none,
       lastFailureAt := none, verified := false, hash := none : RuleRecord }).verified =
      ({ category := .aiTerms, data := payT, source := "cdn",
         url := RULE_ENDPOINTS .aiTerms, fetchedAt := 7, lastError := none,
         lastFailureAt := none, verified := false, hash := none : RuleRecord }).hash.isSome := by
  have h := C2_remote_source_verified_amended .aiTerms none respondOK shaDef parseAiTerms 7
    { category := .aiTerms, data := payT, source := "cdn",
      url := RULE_ENDPOINTS .aiTerms, fetchedAt := 7, lastError := none,
      lastFailureAt := none, verified := false, hash := none }
    [.fetch (RULE_ENDPOINTS .aiTerms), .parsed, .normalized] (by rfl)
  exact ⟨h.1, h.2.1⟩

/-- C7: every failure mode of the manifest fetch (network/timeout rejection,
non-success HTTP status, invalid JSON, invalid structure) makes
`fetchIndexManifest` return `null` rather than throw — also when a stale
cache entry exists — and the rule fetcher then proceeds with the hardcoded
default URL for the category, performs no digest check, and produces a
record with `verified = false` and no digest. -/
theorem C7_manifest_failure_defaults :
    (∀ (now : Int) (e : String) (parseJson : String → Except String JVal),
       fetchIndexManifest none now (.error e) parseJson = none) ∧
    (∀ (data : JVal) (fa now : Int) (e : String) (parseJson : String → Except String JVal),
       INDEX_CACHE_TTL_MS ≤ now - fa →
       fetchIndexManifest (some (data, fa)) now (.error e) parseJson = none) ∧
    (∀ (now : Int) (resp : HttpResponse) (parseJson : String → Except String JVal),
       resp.ok = false → fetchIndexManifest none now (.ok resp) parseJson = none) ∧
    (∀ (now : Int) (resp : HttpResponse) (parseJson : String → Except String JVal) (pe : String),
       resp.ok = true → parseJson resp.text = .error pe →
       fetchIndexManifest none now (.ok resp) parseJson = none) ∧
    (∀ (now : Int) (resp : HttpResponse) (parseJson : String → Except String JVal) (j : JVal),
       resp.ok = true → parseJson resp.text = .ok j →
       ((j.get "files").truthy && (j.get "files").typeofObject) = false →
       fetchIndexManifest none now (.ok resp) parseJson = none) ∧
    (∀ (c : Category) (response : String → Except String HttpResponse)
       (sha256 : String → String) (parseJson : String → Except String JVal) (now : Int)
       (resp : HttpResponse) (j : JVal) (d : NormalizedPayload),
       response (RULE_ENDPOINTS c) = .ok resp → resp.ok = true →
       parseJson resp.text = .ok j → normalizeRuleData c j = .ok d →
       fetchRuleFromCdn c none response sha256 parseJson now =
         (.ok { category := c, data := d, source := "cdn", url := RULE_ENDPOINTS c,
                fetchedAt := now, lastError := none, lastFailureAt := none,
                verified := false, hash := none },
          [.fetch (RULE_ENDPOINTS c), .parsed, .normalized])) := by
  refine ⟨?_, ?_, ?_, ?_, ?_, ?_⟩
  · intro now e parseJson
    simp [fetchIndexManifest]
  · intro data fa now e parseJson hstale
    have hlt : ¬(now - fa < INDEX_CACHE_TTL_MS) := by omega
    simp [fetchIndexManifest, hlt]
  · intro now resp parseJson hok
    simp [fetchIndexManifest, hok]
  · intro now resp parseJson pe hok hp
    simp [fetchIndexManifest, hok, hp]
  · intro now resp parseJson j hok hp hbad
    simp [fetchIndexManifest, hok, hp, hbad]
  · intro c response sha256 parseJson now resp j d hresp hok hp hn
    simp [fetchRuleFromCdn, fetchRuleFromCdnBody, hresp, hok, hp, hn, JVal.truthy]

/-- C7 (witness): manifest network failure returns `null`, and the
manifest-less fetch serves the default URL unverified. -/
theorem C7_manifest_failure_witness :
    fetchIndexManifest none 7 (.error "net down") parseAiTerms = none ∧
    fetchRuleFromCdn .aiTerms none respondOK shaDef parseAiTerms 7 =
      (.ok { category := .aiTerms, data := payT, source := "cdn",
             url := RULE_ENDPOINTS .aiTerms, fetchedAt := 7, lastError := none,
             lastFailureAt := none, verified := false, hash := none },
       [.fetch (RULE_ENDPOINTS .aiTerms), .parsed, .normalized]) :=
  ⟨C7_manifest_failure_defaults.1 7 "net down" parseAiTerms,
   C7_manifest_failure_defaults.2.2.2.2.2 .aiTerms respondOK shaDef parseAiTerms 7 respOK
     aiTermsRaw payT rfl rfl rfl rfl⟩

theorem fetchPhase_broadcastCount (c : Category) (env : RetrieveEnv) :
    broadcastCount (retrieveRuleFetchPhase c env).2 =
      (match env.fetchOutcome with
       | .ok rr =>
         match priorPayload env with
         | none => 1
         | some pd => if deepEqual pd rr.data then 0 else 1
       | .error _ => 0) := by
  cases hfo : env.fetchOutcome with
  | ok rr =>
    cases hmem : env.memoryRecord with
    | some m =>
      by_cases hde : deepEqual m.data rr.data = true
      · simp [retrieveRuleFetchPhase, priorPayload, hfo, hmem, hde, broadcastCount,
          REvent.isBroadcast]
      · have hde' := Bool.eq_false_iff.mpr hde
        simp [retrieveRuleFetchPhase, priorPayload, hfo, hmem, hde', broadcastCount,
          REvent.isBroadcast]
    | none =>
      cases hst : env.storedRecord with
      | some s =>
        by_cases hde : deepEqual s.data rr.data = true
        · simp [retrieveRuleFetchPhase, priorPayload, hfo, hmem, hst, hde, broadcastCount,
            REvent.isBroadcast]
        · have hde' := Bool.eq_false_iff.mpr hde
          simp [retrieveRuleFetchPhase, priorPayload, hfo, hmem, hst, hde', broadcastCount,
            REvent.isBroadcast]
      | none =>
        simp [retrieveRuleFetchPhase, priorPayload, hfo, hmem, hst, broadcastCount,
          REvent.isBroadcast]
  | error ce =>
    cases hst : env.storedRecord with
    | some s =>
      simp [retrieveRuleFetchPhase, hfo, hst, broadcastCount, REvent.isBroadcast]
    | none =>
      cases hfb : env.fallbackOutcome with
      | ok fb =>
        simp [retrieveRuleFetchPhase, hfo, hst, hfb, broadcastCount, REvent.isBroadcast]
      | error fe =>
        simp [retrieveRuleFetchPhase, hfo, hst, hfb, broadcastCount, REvent.isBroadcast]

/-- When no fresh cached record serves the call, `retrieveRule` runs the
fetch closure. -/
theorem retrieveRule_eq_fetchPhase (c : Category) (env : RetrieveEnv)
    (h : cacheHit env = false) :
    retrieveRule c env = retrieveRuleFetchPhase c env := by
  have hpair := Bool.or_eq_false_iff.mp h
  have hm := hpair.1
  have hs := hpair.2
  unfold retrieveRule retrieveRuleStoragePhase
  cases hmem : env.memoryRecord with
  | some m =>
    rw [hmem] at hm
    cases hst : env.storedRecord with
    | some s =>
      rw [hst] at hs
      simp [hm, hs]
    | none => simp [hm]
  | none =>
    cases hst : env.storedRecord with
    | some s =>
      rw [hst] at hs
      simp [hs]
    | none => simp

/-- C3 (counterexample): the claim requires the broadcast decision to be the
same for remote and fallback refreshes; but with an identical starting state
(no prior record) and the same new payload, a successful remote fetch
broadcasts once while a successful packaged-fallback load never broadcasts. -/
theorem C3_fallback_no_broadcast_counterexample :
    broadcastCount (retrieveRule .aiTerms envRemoteFix).2 = 1 ∧
    broadcastCount (retrieveRule .aiTerms envFallbackFix).2 = 0 ∧
    (retrieveRule .aiTerms envFallbackFix).1 =
      .ok { fbRec with lastError := some "boom", lastFailureAt := some 1000000000 } := by
  refine ⟨rfl, rfl, rfl⟩

/-- C3 (amended): a broadcast is emitted exactly once on a refresh iff the
remote fetch succeeded and the new normalized payload deep-differs from the
prior payload (or no prior payload existed); cache hits, failed fetches and
successful fallback loads never broadcast. -/
theorem C3_broadcast_characterization (c : Category) (env : RetrieveEnv) :
    broadcastCount (retrieveRule c env).2 =
      if cacheHit env then 0
      else
        (match env.fetchOutcome with
         | .ok rr =>
           match priorPayload env with
           | none => 1
           | some pd => if deepEqual pd rr.data then 0 else 1
         | .error _ => 0) := by
  by_cases hch : cacheHit env = true
  · rw [hch, if_pos rfl]
    rcases Bool.or_eq_true_iff.mp hch with hm | hs
    · cases hmem : env.memoryRecord with
      | none => rw [hmem] at hm; simp [isRecordFresh] at hm
      | some m =>
        rw [hmem] at hm
        simp [retrieveRule, hmem, hm, broadcastCount]
    · cases hst : env.storedRecord with
      | none => rw [hst] at hs; simp [isRecordFresh] at hs
      | some s =>
        rw [hst] at hs
        by_cases hm : (!env.forceRefresh && isRecordFresh env.now env.memoryRecord) = true
        · cases hmem : env.memoryRecord with
          | none => rw [hmem] at hm; simp [isRecordFresh] at hm
          | some m =>
            rw [hmem] at hm
            simp [retrieveRule, hmem, hm, broadcastCount]
        · have hmf := Bool.eq_false_iff.mpr hm
          cases hmem : env.memoryRecord with
          | none =>
            simp [retrieveRule, retrieveRuleStoragePhase, hmem, hst, hs, broadcastCount,
              REvent.isBroadcast]
          | some m =>
            rw [hmem] at hmf
            simp [retrieveRule, retrieveRuleStoragePhase, hmem, hmf, hst, hs, broadcastCount,
              REvent.isBroadcast]
  · have hch' := Bool.eq_false_iff.mpr hch
    rw [retrieveRule_eq_fetchPhase c env hch', hch']
    simp only [Bool.false_eq_true, if_false]
    exact fetchPhase_broadcastCount c env

/-- C4: when the remote fetch fails and no fresh cache served the call, the
orchestrator recovers in strict order — an existing stored record is re-served
with only its failure metadata updated and the packaged fallback is not
loaded; the fallback is loaded only with no stored record; and the call
errors exactly when the stored record is absent and the fallback load fails
too. -/
theorem C4_fallback_order (c : Category) (env : RetrieveEnv) (e : String)
    (hmiss : cacheHit env = false) (hfe : env.fetchOutcome = .error e) :
    (∀ sr, env.storedRecord = some sr →
       (retrieveRule c env).1 = .ok { sr with lastError := some e, lastFailureAt := some env.now } ∧
       fallbackAttempted (retrieveRule c env).2 = false) ∧
    (env.storedRecord = none → ∀ fb, env.fallbackOutcome = .ok fb →
       (retrieveRule c env).1 = .ok { fb with lastError := some e, lastFailureAt := some env.now } ∧
       fallbackAttempted (retrieveRule c env).2 = true) ∧
    (env.storedRecord = none → ∀ fe, env.fallbackOutcome = .error fe →
       (retrieveRule c env).1 =
         .error s!"No rule data available for {c.key}. CDN error: {e}. Fallback error: {fe}") ∧
    ((retrieveRule c env).1.isOk = false ↔
       env.storedRecord = none ∧ env.fallbackOutcome.isOk = false) := by
  rw [retrieveRule_eq_fetchPhase c env hmiss]
  refine ⟨?_, ?_, ?_, ?_⟩
  · intro sr hsr
    simp [retrieveRuleFetchPhase, hfe, hsr, fallbackAttempted]
  · intro hsr fb hfb
    simp [retrieveRuleFetchPhase, hfe, hsr, hfb, fallbackAttempted]
  · intro hsr fe hfb
    simp [retrieveRuleFetchPhase, hfe, hsr, hfb]
  · cases hsr : env.storedRecord with
    | some sr => simp [retrieveRuleFetchPhase, hfe, hsr, Except.isOk, Except.toBool]
    | none =>
      cases hfb : env.fallbackOutcome with
      | ok fb => simp [retrieveRuleFetchPhase, hfe, hsr, hfb, Except.isOk, Except.toBool]
      | error fe => simp [retrieveRuleFetchPhase, hfe, hsr, hfb, Except.isOk, Except.toBool]

/-- C4 (witness): the recovery order on concrete environments — stored record
re-served without touching the fallback, and total failure surfacing the
combined error. -/
theorem C4_fallback_order_witness :
    ((retrieveRule .aiTerms envStoredFix).1 =
       .ok { cdnRecStale with lastError := some "boom", lastFailureAt := some 1000000000 } ∧
     fallbackAttempted (retrieveRule .aiTerms envStoredFix).2 = false) ∧
    (retrieveRule .aiTerms envTotalFix).1 =
      .error "No rule data available for aiTerms. CDN error: boom. Fallback error: fbfail" := by
  refine ⟨(C4_fallback_order .aiTerms envStoredFix "boom" rfl rfl).1 cdnRecStale rfl, ?_⟩
  have h := (C4_fallback_order .aiTerms envTotalFix "boom" rfl rfl).2.2.1 rfl "fbfail" rfl
  rw [h]
  rfl

/-- C9: freshness is decided by provenance-dependent TTLs — a record with
`source = 'cdn'` is fresh exactly while its age is strictly below 6 hours
(21600000 ms) and any other record strictly below 15 minutes (900000 ms),
with the boundary instant already stale — and without `forceRefresh` a fresh
in-memory or stored record is returned unchanged with no fetch attempted. -/
theorem C9_freshness_ttl :
    (∀ (now : Int) (r : RuleRecord),
       isRecordFresh now (some r) = true ↔
         (r.fetchedAt ≠ 0 ∧
          now - r.fetchedAt <
            (if r.source = "cdn" then RULE_CACHE_TTL_MS else FALLBACK_RETRY_MS))) ∧
    RULE_CACHE_TTL_MS = 21600000 ∧ FALLBACK_RETRY_MS = 900000 ∧
    (∀ r : RuleRecord, r.source = "cdn" → r.fetchedAt ≠ 0 →
       isRecordFresh (r.fetchedAt + RULE_CACHE_TTL_MS) (some r) = false ∧
       isRecordFresh (r.fetchedAt + RULE_CACHE_TTL_MS - 1) (some r) = true) ∧
    (∀ (c : Category) (env : RetrieveEnv) (m : RuleRecord),
       env.forceRefresh = false → env.memoryRecord = some m →
       isRecordFresh env.now (some m) = true →
       retrieveRule c env = (.ok m, [])) ∧
    (∀ (c : Category) (env : RetrieveEnv) (s : RuleRecord),
       env.forceRefresh = false → isRecordFresh env.now env.memoryRecord = false →
       env.storedRecord = some s → isRecordFresh env.now (some s) = true →
       retrieveRule c env = (.ok s, [.memWrite s])) := by
  have hiff : ∀ (now : Int) (r : RuleRecord),
      isRecordFresh now (some r) = true ↔
        (r.fetchedAt ≠ 0 ∧
         now - r.fetchedAt <
           (if r.source = "cdn" then RULE_CACHE_TTL_MS else FALLBACK_RETRY_MS)) := by
    intro now r
    by_cases hz : r.fetchedAt = 0
    · simp [isRecordFresh, hz]
    · by_cases hsrc : r.source = "cdn" <;> simp [isRecordFresh, hz, hsrc]
  refine ⟨hiff, rfl, rfl, ?_, ?_, ?_⟩
  · intro r hsrc hz
    constructor
    · rw [Bool.eq_false_iff]
      intro hfresh
      have := (hiff _ r).mp hfresh
      rw [if_pos hsrc] at this
      omega
    · exact (hiff _ r).mpr ⟨hz, by rw [if_pos hsrc]; omega⟩
  · intro c env m hforce hmem hfresh
    simp [retrieveRule, hmem, hforce, hfresh]
  · intro c env s hforce hmemstale hst hfresh
    cases hmem : env.memoryRecord with
    | some m =>
      rw [hmem] at hmemstale
      simp [retrieveRule, retrieveRuleStoragePhase, hmem, hmemstale, hst, hforce, hfresh]
    | none =>
      simp [retrieveRule, retrieveRuleStoragePhase, hmem, hst, hforce, hfresh]

/-- C9 (witness): a 1 ms old remote record at `now = 6` is fresh and served
from memory without any fetch event. -/
theorem C9_freshness_witness :
    retrieveRule .aiTerms envFreshFix = (.ok cdnRecStale, []) :=
  C9_freshness_ttl.2.2.2.2.1 .aiTerms envFreshFix cdnRecStale rfl rfl (by decide)

/-- C10: when the remote fetch fails with a stored record present, the record
re-cached in memory, re-persisted and returned is the stored record with only
`lastError` and `lastFailureAt` updated; `data`, `source`, `url`,
`fetchedAt`, `verified`, `hash` and `category` are unchanged. -/
theorem C10_stored_record_frame (c : Category) (env : RetrieveEnv) (e : String)
    (sr : RuleRecord) (hmiss : cacheHit env = false)
    (hfe : env.fetchOutcome = .error e) (hsr : env.storedRecord = some sr) :
    retrieveRule c env =
      (.ok { sr with lastError := some e, lastFailureAt := some env.now },
       [.fetchAttempt,
        .memWrite { sr with lastError := some e, lastFailureAt := some env.now },
        .storageWrite { sr with lastError := some e, lastFailureAt := some env.now }]) ∧
    ({ sr with lastError := some e, lastFailureAt := some env.now }).data = sr.data ∧
    ({ sr with lastError := some e, lastFailureAt := some env.now }).source = sr.source ∧
    ({ sr with lastError := some e, lastFailureAt := some env.now }).url = sr.url ∧
    ({ sr with lastError := some e, lastFailureAt := some env.now }).fetchedAt = sr.fetchedAt ∧
    ({ sr with lastError := some e, lastFailureAt := some env.now }).verified = sr.verified ∧
    ({ sr with lastError := some e, lastFailureAt := some env.now }).hash = sr.hash ∧
    ({ sr with lastError := some e, lastFailureAt := some env.now }).category = sr.category := by
  rw [retrieveRule_eq_fetchPhase c env hmiss]
  refine ⟨?_, rfl, rfl, rfl, rfl, rfl, rfl, rfl⟩
  simp [retrieveRuleFetchPhase, hfe, hsr]

/-- C10 (witness): the frame theorem on the concrete stored-record
environment. -/
theorem C10_stored_record_frame_witness :
    retrieveRule .aiTerms envStoredFix =
      (.ok { cdnRecStale with lastError := some "boom", lastFailureAt := some 1000000000 },
       [.fetchAttempt,
        .memWrite { cdnRecStale with lastError := some "boom", lastFailureAt := some 1000000000 },
        .storageWrite { cdnRecStale with lastError := some "boom", lastFailureAt := some 1000000000 }]) :=
  (C10_stored_record_frame .aiTerms envStoredFix "boom" cdnRecStale rfl rfl rfl).1

/-- C8: under the single-threaded event model, at most one fetch per category
is ever in flight — a second caller that checks the in-flight map while a
fetch is pending joins it instead of starting a new one (two overlapping
calls trigger exactly one fetch), and the owning caller's `finally` removes
the map entry on completion whether the fetch succeeded or failed. -/
theorem C8_single_inflight_fetch :
    (dedupRun ⟨false, 0, 0⟩ [.check, .check]).fetchStarts = 1 ∧
    (dedupCheck (dedupCheck ⟨false, 0, 0⟩).1).2 = .joined ∧
    (∀ (s : DedupState) (oc : Bool),
       (dedupComplete s oc).pending = false ∧ dedupComplete s true = dedupComplete s false) ∧
    (∀ (steps : List DedupStep) (s : DedupState), dedupInv s → dedupWF s steps →
       dedupInv (dedupRun s steps) ∧ (dedupRun s steps).inFlight ≤ 1) := by
  refine ⟨rfl, rfl, fun s oc => ⟨rfl, rfl⟩, ?_⟩
  intro steps
  induction steps with
  | nil => intro s hinv _; exact ⟨hinv, hinv.1⟩
  | cons st rest ih =>
    intro s hinv hwf
    cases st with
    | check =>
      by_cases hp : s.pending = true
      · have hstep : (dedupCheck s).1 = s := by simp [dedupCheck, hp]
        have hwf' : dedupWF (dedupCheck s).1 rest := hwf
        rw [hstep] at hwf'
        have := ih s hinv hwf'
        simpa [dedupRun, hstep] using this
      · have hp' := Bool.eq_false_iff.mpr hp
        have hz : s.inFlight = 0 := by
          rcases hinv with ⟨hle, hiff⟩
          have : ¬s.inFlight = 1 := fun h1 => by
            rw [hiff.mpr h1] at hp'
            exact absurd hp' (by simp)
          omega
        have hstep : (dedupCheck s).1 =
            { pending := true, fetchStarts := s.fetchStarts + 1, inFlight := s.inFlight + 1 } := by
          simp [dedupCheck, hp']
        have hinv' : dedupInv (dedupCheck s).1 := by
          rw [hstep]
          constructor
          · simp [hz]
          · simp [hz]
        have hwf' : dedupWF (dedupCheck s).1 rest := hwf
        have := ih (dedupCheck s).1 hinv' hwf'
        simpa [dedupRun] using this
    | complete oc =>
      obtain ⟨hone, hpend, hwf'⟩ := hwf
      have hinv' : dedupInv (dedupComplete s oc) := by
        constructor
        · simp [dedupComplete, hone]
        · simp [dedupComplete, hone]
      have := ih (dedupComplete s oc) hinv' hwf'
      simpa [dedupRun] using this

/-- C8 (witness): the invariant theorem run on the concrete trace
"start a fetch, then it completes". -/
theorem C8_single_inflight_witness :
    dedupInv (dedupRun ⟨false, 0, 0⟩ [.check, .complete true]) ∧
    (dedupRun ⟨false, 0, 0⟩ [.check, .complete true]).inFlight ≤ 1 :=
  C8_single_inflight_fetch.2.2.2 [.check, .complete true] ⟨false, 0, 0⟩
    ⟨by simp, by simp⟩ ⟨rfl, rfl, trivial⟩

end BlockHub
